import Mathlib

set_option maxRecDepth 8192

/-!
Verification development for the touille backend (TikTok recipe extractor).

The definitions below are a shallow embedding of the Python sources under
`backend/app/`: the URL normalizer and recipe/settings store (`db.py`),
the extraction prompt builder and post-processing (`extract.py`), the
pydantic models (`models.py`), and the `/process` and `/chat` logic of
`main.py`.  External collaborators (yt-dlp, whisper, the Anthropic model,
PostgreSQL) are modelled as oracle parameters; the database is modelled as
an in-memory store with the same keying and upsert semantics as the SQL
statements in `db.py`.
-/

namespace Touille

/-- JSON values, as produced by Python `json.loads`.  Numbers are modelled
as rationals (Python floats/ints; no claim computes with them).  Object
entries keep insertion order, mirroring Python dicts. -/
inductive Json where
  | null : Json
  | bool : Bool → Json
  | num : Rat → Json
  | str : String → Json
  | arr : List Json → Json
  | obj : List (String × Json) → Json

/-- Dict key lookup (first match; `json.loads` yields unique keys). -/
def jsonGet (kvs : List (String × Json)) (k : String) : Option Json :=
  (kvs.find? (fun p => p.1 == k)).map (fun p => p.2)

/- ------------------------------------------------------------------
URL normalizer: embedding of `_normalize_tiktok_url` (db.py lines 13-16),
which is `urlunparse` applied to the scheme/netloc/path of `urlparse`
with params, query and fragment replaced by the empty string.
`urlparse`/`urlunparse` are embedded from CPython `urllib/parse.py`
(3.10-era semantics: WHATWG control-char stripping, scheme detection,
netloc split with the mismatched-bracket ValueError, the `uses_params`
guard on the params split).  Strings are processed as character lists.

Domain boundary: `_checknetloc` has an ASCII fast path
(`if not netloc or netloc.isascii(): return`) on which it provably does
nothing; that path is modelled exactly (as a no-op).  For a non-ASCII
authority the source additionally runs an NFKC homoglyph validation
(via `unicodedata`) that can raise ValueError; that table-driven check
is outside this embedding, so `urlsplitL` is faithful only for ASCII
authorities, and every universal theorem below carries an explicit
ASCII-authority hypothesis.  (Non-ASCII authorities are exercised by no
claim.)
------------------------------------------------------------------- -/

/-- `_WHATWG_C0_CONTROL_OR_SPACE`: code points 0x00-0x20. -/
def c0_or_space (c : Char) : Bool := c.toNat ≤ 32

/-- `_UNSAFE_URL_BYTES_TO_REMOVE`: tab, carriage return, line feed. -/
def removed_url_byte (c : Char) : Bool := c == '\t' || c == '\r' || c == '\n'

/-- The lstrip of C0/space followed by removal of tab/CR/LF that
`urlsplit` applies to its argument. -/
def cleanUrl (l : List Char) : List Char :=
  (l.dropWhile c0_or_space).filter (fun c => !removed_url_byte c)

/-- `scheme_chars` of urllib: ASCII letters, digits, `+`, `-`, `.`. -/
def scheme_char (c : Char) : Bool :=
  c.isAlpha || c.isDigit || c == '+' || c == '-' || c == '.'

/-- Split a list at the first occurrence of `c` (Python `split(c, 1)`
when it succeeds, `str.find` composed with slicing). -/
def splitFirst (c : Char) : List Char → Option (List Char × List Char)
  | [] => none
  | a :: t =>
      if a = c then some ([], t)
      else (splitFirst c t).map (fun p => (a :: p.1, p.2))

/-- Split a list around its last `'/'` (Python `str.rfind('/')`):
returns `(before, after)` with the input equal to
`before ++ '/' :: after` and no `'/'` in `after`. -/
def splitLastSlash : List Char → Option (List Char × List Char)
  | [] => none
  | a :: t =>
      match splitLastSlash t with
      | some p => some (a :: p.1, p.2)
      | none => if a = '/' then some ([], t) else none

/-- Characters that end the netloc in `_splitnetloc`. -/
def netloc_delim (c : Char) : Bool := c == '/' || c == '?' || c == '#'

/-- Scheme detection of `urlsplit`: `i = url.find(':')`, then `url[:i]`
must be nonempty and consist of scheme characters.  `takeWhile (· != ':')`
is exactly `url[:i]` when a colon exists, and the length test encodes
its existence. -/
def schemeSplit (l : List Char) : List Char × List Char :=
  let pre := l.takeWhile (fun c => c != ':')
  if decide (pre.length < l.length) && decide (0 < pre.length) &&
     pre.all scheme_char then
    (pre.map Char.toLower, l.drop (pre.length + 1))
  else ([], l)

/-- The two trailing conditional splits of `urlsplit`:
`if '#' in url: url, fragment = url.split('#', 1)` followed by
`if '?' in url: url, query = url.split('?', 1)`.
Returns (path, query, fragment). -/
def fragQuerySplit (l : List Char) : List Char × List Char × List Char :=
  let fsplit := match splitFirst '#' l with
                | some p => p
                | none => (l, [])
  let qsplit := match splitFirst '?' fsplit.1 with
                | some p => p
                | none => (fsplit.1, [])
  (qsplit.1, qsplit.2, fsplit.2)

/-- Result of `urlsplit`: scheme, netloc, path, query, fragment.
`none` models the `ValueError` raised for an authority containing
`'['` without `']'` or vice versa.  The trailing `_checknetloc` call of
the source is modelled by its ASCII fast path, a no-op (see the section
comment: for non-ASCII authorities, where the source may additionally
raise, the embedding is not faithful and no theorem applies). -/
def urlsplitL (l0 : List Char) :
    Option (List Char × List Char × List Char × List Char × List Char) :=
  let l := cleanUrl l0
  let s := schemeSplit l
  -- `if url[:2] == '//'`: netloc split (`_splitnetloc(url, 2)`) and
  -- bracket validation
  if s.2.take 2 = ['/', '/'] then
    let r := s.2.drop 2
    let netloc := r.takeWhile (fun c => !netloc_delim c)
    let rest2 := r.dropWhile (fun c => !netloc_delim c)
    if (netloc.contains '[' && !netloc.contains ']') ||
       (netloc.contains ']' && !netloc.contains '[') then
      none
    else
      let fq := fragQuerySplit rest2
      some (s.1, netloc, fq.1, fq.2.1, fq.2.2)
  else
    let fq := fragQuerySplit s.2
    some (s.1, [], fq.1, fq.2.1, fq.2.2)

/-- `_splitparams`: split `;params` off the last path segment.  Only
called when a `';'` is present. -/
def splitparamsL (l : List Char) : List Char × List Char :=
  match splitLastSlash l with
  | some p =>
      -- `i = url.find(';', url.rfind('/'))`
      match splitFirst ';' p.2 with
      | some q => (p.1 ++ '/' :: q.1, q.2)
      | none => (l, [])
  | none =>
      match splitFirst ';' l with
      | some q => (q.1, q.2)
      | none => (l, [])

/-- `uses_params` (urllib.parse): the schemes for which `urlparse`
splits `;params` off the last path segment. -/
def uses_params : List (List Char) :=
  ["".data, "ftp".data, "hdl".data, "prospero".data, "http".data,
   "imap".data, "https".data, "shttp".data, "rtsp".data, "rtspu".data,
   "sip".data, "sips".data, "mms".data, "sftp".data, "tel".data]

/-- `urlparse`: `urlsplit` plus the params split on the path, guarded by
`if scheme in uses_params and ';' in url`. -/
def urlparseL (l : List Char) :
    Option (List Char × List Char × List Char × List Char × List Char × List Char) :=
  match urlsplitL l with
  | none => none
  | some (scheme, netloc, path, query, fragment) =>
      if uses_params.contains scheme && path.contains ';' then
        let ps := splitparamsL path
        some (scheme, netloc, ps.1, ps.2, query, fragment)
      else
        some (scheme, netloc, path, [], query, fragment)

/-- `urlunsplit` specialised to empty query and fragment, which is what
`urlunparse((scheme, netloc, path, "", "", ""))` reduces to. -/
def urlunsplit3 (scheme netloc path : List Char) : List Char :=
  let url :=
    if netloc ≠ [] ∨ (path ≠ [] ∧ path.take 2 = ['/', '/']) then
      let p2 := if path ≠ [] ∧ path.head? ≠ some '/' then '/' :: path else path
      '/' :: '/' :: (netloc ++ p2)
    else path
  if scheme ≠ [] then scheme ++ ':' :: url else url

/-- `_normalize_tiktok_url` on character lists. -/
def normalizeL (l : List Char) : Option (List Char) :=
  match urlparseL l with
  | none => none
  | some (scheme, netloc, path, _params, _query, _fragment) =>
      some (urlunsplit3 scheme netloc path)

/-- `_normalize_tiktok_url` (db.py): strip query params / fragments so the
same video always matches.  `none` models the `ValueError` escape. -/
def normalize_tiktok_url (s : String) : Option String :=
  (normalizeL s.data).map (fun l => String.mk l)

/- ------------------------------------------------------------------
Recipe / settings store: embedding of `db.py` and `sa_models.py`.
The `recipes` and `user_settings` tables are lists of rows; the
PostgreSQL `INSERT .. ON CONFLICT DO UPDATE` statements are modelled as
atomic keyed upserts on those lists.  Timestamps (`created_at`,
`func.now()`) are abstract `Nat` clock values supplied by the caller;
auto-increment ids come from a `nextId` counter.  (The id sequence being
consumed on conflicting inserts is not modelled; no claim depends on
the numeric value of fresh ids beyond freshness.)
------------------------------------------------------------------- -/

/-- `_ANON` (db.py line 10). -/
def ANON : String := "__anonymous__"

/-- `user_id or _ANON`: Python `or` takes the sentinel when `user_id` is
`None` or the (falsy) empty string. -/
def effectiveUser : Option String → String
  | some u => if u = "" then ANON else u
  | none => ANON

/-- A row of the `recipes` table (sa_models.py `Recipe`). -/
structure RecipeRow where
  id : Nat
  url : String
  user_id : String
  transcript : String
  caption : Option String
  recipe : Json
  created_at : Nat

/-- A row of the `user_settings` table (sa_models.py `UserSettings`).
`get_user_settings` returns exactly these fields (its `isoformat`
rendering of `updated_at` is kept abstract as the clock value). -/
structure SettingsRow where
  user_id : String
  dietary_restrictions : Option String
  spice_tolerance : Int
  custom_rules : Option String
  updated_at : Nat
deriving DecidableEq

/-- Database state: the two tables plus the id sequence. -/
structure Store where
  recipes : List RecipeRow
  nextId : Nat
  settings : List SettingsRow

/-- Key predicate of the `uq_recipes_url_user_id` unique constraint. -/
def keyMatch (url eu : String) (r : RecipeRow) : Bool :=
  r.url == url && r.user_id == eu

/-- The four columns selected by `lookup_recipe`. -/
structure CachedRecipe where
  id : Nat
  transcript : String
  caption : Option String
  recipe : Json

/-- `lookup_recipe` (db.py lines 19-38).  The outer `none` models the
`ValueError` from URL normalization propagating; `some none` is a clean
cache miss. -/
def lookup_recipe (st : Store) (raw_url : String) (user_id : Option String) :
    Option (Option CachedRecipe) :=
  match normalize_tiktok_url raw_url with
  | none => none
  | some url =>
      let eu := effectiveUser user_id
      some ((st.recipes.find? (keyMatch url eu)).map
        (fun r => ⟨r.id, r.transcript, r.caption, r.recipe⟩))

/-- `save_recipe` (db.py lines 41-70): atomic upsert on `(url, user_id)`.
On conflict it updates `transcript`, `caption`, `recipe` in place
(leaving `id` and `created_at` untouched, as the `set_` clause does) and
returns the existing id; otherwise it inserts a fresh row.  The keyed map
touches at most one row because the unique constraint admits at most one
match.  `none` models the normalization `ValueError`. -/
def save_recipe (st : Store) (raw_url : String) (transcript : String)
    (caption : Option String) (recipe : Json) (user_id : Option String)
    (now : Nat) : Option (Nat × Store) :=
  match normalize_tiktok_url raw_url with
  | none => none
  | some url =>
      let eu := effectiveUser user_id
      match st.recipes.find? (keyMatch url eu) with
      | some r =>
          some (r.id,
            { st with recipes := st.recipes.map (fun x =>
                if keyMatch url eu x then
                  { x with transcript := transcript, caption := caption,
                           recipe := recipe }
                else x) })
      | none =>
          some (st.nextId,
            { st with
                recipes := st.recipes ++
                  [⟨st.nextId, url, eu, transcript, caption, recipe, now⟩],
                nextId := st.nextId + 1 })

/-- `get_user_settings` (db.py lines 90-103). -/
def get_user_settings (st : Store) (user_id : String) : Option SettingsRow :=
  st.settings.find? (fun r => r.user_id == user_id)

/-- `set_user_settings` (db.py lines 106-137): read-merge then atomic
upsert keyed on `user_id`; `updated_at` is set to `func.now()` on both
the insert and the update arm.  Returns the stored state together with
the re-read `get_user_settings(user_id)` result, as the Python does. -/
def set_user_settings (st : Store) (user_id : String)
    (dietary_restrictions : Option String) (spice_tolerance : Option Int)
    (custom_rules : Option String) (now : Nat) : Store × Option SettingsRow :=
  let existing := get_user_settings st user_id
  let md := match dietary_restrictions with
            | some d => some d
            | none => match existing with
                      | some e => e.dietary_restrictions
                      | none => none
  let ms := match spice_tolerance with
            | some s => s
            | none => match existing with
                      | some e => e.spice_tolerance
                      | none => 2
  let mc := match custom_rules with
            | some c => some c
            | none => match existing with
                      | some e => e.custom_rules
                      | none => none
  let row : SettingsRow := ⟨user_id, md, ms, mc, now⟩
  let st' :=
    if st.settings.any (fun r => r.user_id == user_id) then
      { st with settings := st.settings.map (fun r =>
          if r.user_id == user_id then row else r) }
    else
      { st with settings := st.settings ++ [row] }
  (st', get_user_settings st' user_id)

/-- Auto-increment invariant of the `recipes` table: every stored id is
below the sequence counter, so freshly inserted ids are new. -/
def StoreWF (st : Store) : Prop := ∀ r ∈ st.recipes, r.id < st.nextId

/- ------------------------------------------------------------------
Pydantic models (models.py) and the validation performed by
`Recipe(**recipe_dict)`.  Required fields must be present with the
right shape; optional fields default as declared; extra keys are
ignored (pydantic default).  Numeric coercions beyond float-to-integral
(e.g. numeric strings) are not modelled; no claim exercises them.
------------------------------------------------------------------- -/

/-- models.py `Servings`. -/
structure Servings where
  amount : Option Rat
  unit : Option String
deriving DecidableEq

/-- models.py `Times`. -/
structure Times where
  prep_minutes : Option Int
  cook_minutes : Option Int
  total_minutes : Option Int
deriving DecidableEq

/-- models.py `Ingredient`. -/
structure Ingredient where
  name : String
  amount : Option Rat
  unit : Option String
  notes : Option String
deriving DecidableEq

/-- models.py `Step`. -/
structure Step where
  order : Int
  instruction : String
  duration_minutes : Option Int
  require_timer : Bool
deriving DecidableEq

/-- models.py `Modification`. -/
structure Modification where
  what : String
  why : String
deriving DecidableEq

/-- models.py `Recipe` (the extracted document, not the table row). -/
structure Recipe where
  title : String
  description : Option String
  servings : Option Servings
  times : Option Times
  ingredients : List Ingredient
  steps : List Step
  tags : List String
  equipment : List String
  notes : Option String
  modifications : Option (List Modification)
deriving DecidableEq

/-- Required string field. -/
def vStr (kvs : List (String × Json)) (k : String) : Except String String :=
  match jsonGet kvs k with
  | some (Json.str s) => Except.ok s
  | _ => Except.error ("validation error: " ++ k)

/-- Optional string field (missing or null yield the default `none`). -/
def vOptStr (kvs : List (String × Json)) (k : String) :
    Except String (Option String) :=
  match jsonGet kvs k with
  | none => Except.ok none
  | some Json.null => Except.ok none
  | some (Json.str s) => Except.ok (some s)
  | some _ => Except.error ("validation error: " ++ k)

/-- Optional float field. -/
def vOptNum (kvs : List (String × Json)) (k : String) :
    Except String (Option Rat) :=
  match jsonGet kvs k with
  | none => Except.ok none
  | some Json.null => Except.ok none
  | some (Json.num q) => Except.ok (some q)
  | some _ => Except.error ("validation error: " ++ k)

/-- Optional int field; integral floats coerce, others fail. -/
def vOptInt (kvs : List (String × Json)) (k : String) :
    Except String (Option Int) :=
  match jsonGet kvs k with
  | none => Except.ok none
  | some Json.null => Except.ok none
  | some (Json.num q) =>
      if q.den = 1 then Except.ok (some q.num)
      else Except.error ("validation error: " ++ k)
  | some _ => Except.error ("validation error: " ++ k)

/-- Required int field. -/
def vInt (kvs : List (String × Json)) (k : String) : Except String Int :=
  match jsonGet kvs k with
  | some (Json.num q) =>
      if q.den = 1 then Except.ok q.num
      else Except.error ("validation error: " ++ k)
  | _ => Except.error ("validation error: " ++ k)

/-- Bool field with a default for a missing key. -/
def vBoolD (kvs : List (String × Json)) (k : String) (dflt : Bool) :
    Except String Bool :=
  match jsonGet kvs k with
  | none => Except.ok dflt
  | some (Json.bool b) => Except.ok b
  | some _ => Except.error ("validation error: " ++ k)

/-- List-of-strings field defaulting to `[]`. -/
def vStrList (kvs : List (String × Json)) (k : String) :
    Except String (List String) :=
  match jsonGet kvs k with
  | none => Except.ok []
  | some (Json.arr xs) =>
      xs.mapM (fun j => match j with
        | Json.str s => Except.ok s
        | _ => Except.error ("validation error: " ++ k))
  | some _ => Except.error ("validation error: " ++ k)

/-- `Servings(**d)`. -/
def parseServings (j : Json) : Except String Servings :=
  match j with
  | Json.obj kvs => do
      let amount ← vOptNum kvs "amount"
      let u ← vOptStr kvs "unit"
      Except.ok ⟨amount, u⟩
  | _ => Except.error "validation error: servings"

/-- `Times(**d)`. -/
def parseTimes (j : Json) : Except String Times :=
  match j with
  | Json.obj kvs => do
      let p ← vOptInt kvs "prep_minutes"
      let c ← vOptInt kvs "cook_minutes"
      let t ← vOptInt kvs "total_minutes"
      Except.ok ⟨p, c, t⟩
  | _ => Except.error "validation error: times"

/-- `Ingredient(**d)`. -/
def parseIngredient (j : Json) : Except String Ingredient :=
  match j with
  | Json.obj kvs => do
      let name ← vStr kvs "name"
      let amount ← vOptNum kvs "amount"
      let u ← vOptStr kvs "unit"
      let notes ← vOptStr kvs "notes"
      Except.ok ⟨name, amount, u, notes⟩
  | _ => Except.error "validation error: ingredient"

/-- `Step(**d)`. -/
def parseStep (j : Json) : Except String Step :=
  match j with
  | Json.obj kvs => do
      let order ← vInt kvs "order"
      let instruction ← vStr kvs "instruction"
      let d ← vOptInt kvs "duration_minutes"
      let rt ← vBoolD kvs "require_timer" false
      Except.ok ⟨order, instruction, d, rt⟩
  | _ => Except.error "validation error: step"

/-- `Modification(**d)`. -/
def parseModification (j : Json) : Except String Modification :=
  match j with
  | Json.obj kvs => do
      let what ← vStr kvs "what"
      let why ← vStr kvs "why"
      Except.ok ⟨what, why⟩
  | _ => Except.error "validation error: modification"

/-- Optional submodel field (missing or null yield `none`). -/
def vOptWith {α : Type} (f : Json → Except String α)
    (kvs : List (String × Json)) (k : String) : Except String (Option α) :=
  match jsonGet kvs k with
  | none => Except.ok none
  | some Json.null => Except.ok none
  | some j => (f j).map some

/-- List-of-submodels field defaulting to `[]`. -/
def vListWith {α : Type} (f : Json → Except String α)
    (kvs : List (String × Json)) (k : String) : Except String (List α) :=
  match jsonGet kvs k with
  | none => Except.ok []
  | some (Json.arr xs) => xs.mapM f
  | some _ => Except.error ("validation error: " ++ k)

/-- `Recipe(**recipe_dict)`: pydantic validation of the extracted
document (models.py lines 39-49).  An `Except.error` models the
`ValidationError` raised for a non-conforming document. -/
def parseRecipe (j : Json) : Except String Recipe :=
  match j with
  | Json.obj kvs => do
      let title ← vStr kvs "title"
      let description ← vOptStr kvs "description"
      let servings ← vOptWith parseServings kvs "servings"
      let times ← vOptWith parseTimes kvs "times"
      let ingredients ← vListWith parseIngredient kvs "ingredients"
      let steps ← vListWith parseStep kvs "steps"
      let tags ← vStrList kvs "tags"
      let equipment ← vStrList kvs "equipment"
      let notes ← vOptStr kvs "notes"
      let modifications ←
        match jsonGet kvs "modifications" with
        | none => Except.ok none
        | some Json.null => Except.ok none
        | some (Json.arr xs) => (xs.mapM parseModification).map some
        | some _ => Except.error "validation error: modifications"
      Except.ok ⟨title, description, servings, times, ingredients, steps,
                 tags, equipment, notes, modifications⟩
  | _ => Except.error "validation error: recipe"

/- ------------------------------------------------------------------
Extraction prompt builder and post-processing: embedding of
`extract.py`.  The Anthropic call is an oracle: `extract_recipe` takes
the parse outcome of `json.loads` on the model response as a parameter.
------------------------------------------------------------------- -/

/-- `RECIPE_EXTRACTION_PROMPT` (extract.py lines 5-61). -/
def RECIPE_EXTRACTION_PROMPT : String :=
"You are a recipe extraction assistant. Your task is to extract recipe information from a transcript and return it as a structured JSON object.

You may receive a video caption and/or an audio transcript. Use ALL available context to extract the recipe. The caption often contains ingredient lists, quantities, or other details not spoken aloud.

Return ONLY a valid JSON object with no additional text, explanation, or markdown formatting.

Use this exact JSON structure:

\x7b
  \"title\": \"string\",
  \"description\": \"string or null\",
  \"servings\": \x7b
    \"amount\": number,
    \"unit\": \"string (e.g. \x27servings\x27, \x27pieces\x27, \x27portions\x27)\"
  \x7d,
  \"times\": \x7b
    \"prep_minutes\": number or null,
    \"cook_minutes\": number or null,
    \"total_minutes\": number or null
  \x7d,
  \"ingredients\": [
    \x7b
      \"name\": \"string\",
      \"amount\": number or null,
      \"unit\": \"string or null\",
      \"notes\": \"string or null (sentence-style capitalization only, e.g. \x27finely chopped\x27, \x27at room temperature\x27)\"
    \x7d
  ],
  \"steps\": [
    \x7b
      \"order\": number,
      \"instruction\": \"string\",
      \"duration_minutes\": number or null,
      \"require_timer\": boolean
    \x7d
  ],
  \"tags\": [\"string\"],
  \"equipment\": [\"string\"],
  \"notes\": \"string or null\",
  \"modifications\": [\x7b\"what\": \"string\", \"why\": \"string\"\x7d]
\x7d

When the user has dietary or preference settings, you may adapt the recipe. If you make any changes, you MUST include \"modifications\": an array of objects with \"what\" (brief description of the change) and \"why\" (reason tied to the user\x27s preference). If you make no changes, use \"modifications\": [].

Rules:
- If information is not mentioned in the transcript, use null for optional fields
- Normalize ingredient amounts to numbers (e.g. \"half\" -> 0.5, \"a dozen\" -> 12)
- Normalize units to standard abbreviations (e.g. \"tablespoons\" -> \"tbsp\", \"teaspoons\" -> \"tsp\", \"grams\" -> \"g\")
- IMPORTANT: If specific amounts are not explicitly stated for ingredients, you MUST infer reasonable amounts based on the recipe context, the number of servings, the type of dish, and standard cooking ratios. Every ingredient should have an amount and unit. For ingredients used \"to taste\" (e.g. salt, pepper), set unit to \"to taste\" and leave amount and notes null so it displays as an amount.
- Split compound steps into individual, atomic steps
- For each step, always infer duration_minutes when the step involves a timed action (e.g. bake 20 min, boil 10 min, rest 30 min). Use null only when the step has no meaningful duration. Set require_timer to true only for steps where the user would benefit from a timer (e.g. baking, boiling, simmering, resting, chilling). Set require_timer to false for steps that do not need a timer (e.g. chop onions, add salt, mix ingredients).
- Infer reasonable tags from context (e.g. \"vegetarian\", \"gluten-free\", \"dessert\", \"quick\")
- List any cooking tools or equipment mentioned
- Capture any tips, variations, or serving suggestions in the notes field
- For ingredient notes, use sentence-style capitalization: only capitalize the first letter of the first word (and proper nouns if any). Do not title-case every word (e.g. \"finely chopped\" not \"Finely Chopped\", \"at room temperature\" not \"At Room Temperature\").
"

/-- The fixed 6-entry spice label table of `_settings_prompt_block`. -/
def spice_labels : List String :=
  ["0 = none", "1 = low", "2 = medium", "3 = medium-high", "4 = high",
   "5 = very high"]

/-- Python list indexing `l[i]`: nonnegative indices in range, negative
indices counted from the end; anything else raises `IndexError`
(modelled as `none`). -/
def pyListGet (l : List String) (i : Int) : Option String :=
  if 0 ≤ i then l.get? i.toNat
  else if 0 ≤ (l.length : Int) + i then l.get? ((l.length : Int) + i).toNat
  else none

/-- `_settings_prompt_block` (extract.py lines 64-78).  Its input is the
dict produced by `get_user_settings`, so `spice_tolerance` is always
present (the `.get(.., 2)` default is unreachable there).  The truthiness
tests on the text fields treat `None` and `""` alike.  `none` models the
`IndexError` from `spice_labels[min(spice, 5)]`. -/
def settings_prompt_block (user_settings : SettingsRow) : Option String :=
  let parts0 : List String :=
    match user_settings.dietary_restrictions with
    | some d =>
        if d != "" then ["Dietary restrictions or allergies: " ++ d] else []
    | none => []
  let spice := user_settings.spice_tolerance
  match pyListGet spice_labels (min spice 5) with
  | none => none
  | some lbl =>
      let parts := parts0 ++
        ["Spice tolerance: " ++ toString spice ++ " (" ++ lbl ++
         "). Reduce or increase chili/hot spices in the recipe accordingly."]
      let parts := parts ++
        (match user_settings.custom_rules with
         | some c => if c != "" then ["Additional rules: " ++ c] else []
         | none => [])
      if parts.isEmpty then some ""
      else some
        ("\n\nUser preferences (adapt the recipe to these when possible; list any changes in \x27modifications\x27):\n"
          ++ String.intercalate "\n" (parts.map (fun p => "- " ++ p)))

/-- Does the first list occur at the start of the second? -/
def startsWithL : List Char → List Char → Bool
  | [], _ => true
  | _ :: _, [] => false
  | a :: t, b :: u => a == b && startsWithL t u

/-- Python substring test `pat in s` on character lists. -/
def containsSub (pat : List Char) : List Char → Bool
  | [] => startsWithL pat []
  | b :: t => startsWithL pat (b :: t) || containsSub pat t

/-- The tail of `extract_recipe`: `if "modifications" not in out:
out["modifications"] = []`.  For a non-dict `json.loads` result the
Python statements misbehave exactly as modelled: membership on a list
compares elements, on a string it is a substring test, on other types it
raises `TypeError`; item assignment on a non-dict raises `TypeError`. -/
def ensure_modifications (j : Json) : Except String Json :=
  match j with
  | Json.obj kvs =>
      if kvs.any (fun p => p.1 == "modifications") then Except.ok (Json.obj kvs)
      else Except.ok (Json.obj (kvs ++ [("modifications", Json.arr [])]))
  | Json.arr xs =>
      if xs.any (fun x => match x with
                  | Json.str s => s == "modifications"
                  | _ => false) then
        Except.ok (Json.arr xs)
      else Except.error "TypeError"
  | Json.str s =>
      if containsSub ("modifications".data) s.data then Except.ok (Json.str s)
      else Except.error "TypeError"
  | _ => Except.error "TypeError"

/-- `extract_recipe` (extract.py lines 81-113).  `api_key` and `model`
only feed the external client; `model_response` is the oracle standing
for `json.loads(response.content[0].text)` (`Except.error` covers both a
failing call and unparseable output).  The system and user prompts are
assembled exactly as in the source; a raising settings block aborts the
call (`IndexError`). -/
def extract_recipe (transcript : String) (api_key : String)
    (caption : Option String) (user_settings : Option SettingsRow)
    (model : String) (model_response : Except String Json) :
    Except String Json :=
  let _ := api_key
  let _ := model
  let systemOpt : Option String :=
    match user_settings with
    | some s =>
        (settings_prompt_block s).map (fun b => RECIPE_EXTRACTION_PROMPT ++ b)
    | none => some RECIPE_EXTRACTION_PROMPT
  match systemOpt with
  | none => Except.error "IndexError: list index out of range"
  | some _system =>
      let user_parts : List String :=
        (match caption with
         | some c => if c != "" then ["Video caption:\n\n" ++ c] else []
         | none => []) ++ ["Transcript:\n\n" ++ transcript]
      let _user_content := String.intercalate "\n\n---\n\n" user_parts
      match model_response with
      | Except.error e => Except.error e
      | Except.ok out => ensure_modifications out

/- ------------------------------------------------------------------
Pipeline orchestrator: embedding of `process_video` (main.py lines
69-114).  External effects are oracles in `Env`; the filesystem is a
pair of existing-directory and existing-file path lists.  The trace
records each external call (download, transcription, extraction) and
each persistence write, in order.
------------------------------------------------------------------- -/

/-- models.py `ProcessRequest` (`url` already validated as an HTTP URL
by pydantic; kept as the raw string `str(req.url)` that the handler
uses). -/
structure ProcessRequest where
  url : String
  user_id : Option String

/-- models.py `ProcessResponse`. -/
structure ProcessResponse where
  transcript : String
  caption : Option String
  recipe : Recipe
  recipe_id : Option Nat
deriving DecidableEq

/-- `fastapi.HTTPException`: status code and detail. -/
structure HErr where
  status : Nat
  detail : String
deriving DecidableEq

/-- Externally visible side effects of one `/process` run. -/
inductive Ev where
  | download : Ev
  | transcribe : Ev
  | extract : Ev
  | save : Ev
deriving DecidableEq

/-- Filesystem state: which directories and files exist. -/
structure FS where
  dirs : List String
  files : List String
deriving DecidableEq

/-- Oracles for one `/process` request.  `tmpdir` is the fresh directory
`tempfile.mkdtemp()` returns inside `download_tiktok`; on success
yt-dlp writes `tmpdir ++ "/video.mp4"` (download.py lines 14-16 and 45).
`dl_outcome` is the caption on success or the `RuntimeError` text;
`transcribe` maps the media path to a transcript or an exception;
`model_response` is the outcome of `json.loads` on the extraction model
reply; `now` is the clock used for `created_at`. -/
structure Env where
  api_key : Option String
  tmpdir : String
  dl_outcome : Except String (Option String)
  transcribe : String → Except String String
  model_response : Except String Json
  now : Nat

/-- Result of one `/process` run: the HTTP outcome, the final database
and filesystem states, and the ordered external-effect trace. -/
structure ProcOut where
  result : Except HErr ProcessResponse
  store : Store
  fs : FS
  trace : List Ev

/-- The transcribe stage of `process_video` (main.py lines 90-96):

    try: transcript = transcribe_video(result.video_path)
    except Exception as e: raise HTTPException(500, "Transcription failed: ...")
    finally:
        if result.video_path and os.path.exists(result.video_path):
            os.unlink(result.video_path)

`tr` is the `transcribe_video` outcome and `unlink` the outcome of the
`os.unlink` OS call when it is invoked.  The in-flight outcome (the
transcript or the propagating `HTTPException`) is computed first; then
the `finally` block runs its guarded unlink.  Python semantics: an
exception raised inside `finally` replaces the in-flight exception, so
a failing unlink leaves the file in place and propagates as an
unhandled `OSError` (a framework 500) instead of the original
outcome. -/
def transcribe_stage (fs : FS) (video_path : String)
    (tr : Except String String) (unlink : Except String Unit) :
    Except HErr String × FS :=
  let inflight : Except HErr String :=
    match tr with
    | Except.error e => Except.error ⟨500, "Transcription failed: " ++ e⟩
    | Except.ok transcript => Except.ok transcript
  if video_path != "" && fs.files.contains video_path then
    match unlink with
    | Except.ok _ => (inflight, ⟨fs.dirs, fs.files.erase video_path⟩)
    | Except.error _ =>
        (Except.error ⟨500, "Internal Server Error"⟩, fs)
  else (inflight, fs)

/-- `process_video` (main.py lines 69-114).

* cache check via `lookup_recipe`; on a hit the cached row is returned
  (re-validated by `Recipe(**cached["recipe"])`, whose failure would be
  an unhandled 500) with no external call and no write;
* `_get_api_key` (500 when unset or empty);
* download (`RuntimeError` becomes a 422); on any download outcome the
  `mkdtemp` directory exists, on success the video file too;
* transcription through `transcribe_stage` (the `try/finally` of
  main.py lines 90-96).  The pipeline instantiates the stage's unlink
  outcome as succeeding — the yt-dlp-written file in the fresh
  `mkdtemp` directory is deletable in the nominal OS model; the stage's
  behavior under a failing unlink (which would replace the propagated
  failure) is stated and analyzed over `transcribe_stage` itself;
* settings fetch when `user_id` is truthy, then extraction and pydantic
  validation (any exception becomes a 500);
* persistence through the `save_recipe` upsert, then the response. -/
def process_video (st : Store) (fs : FS) (env : Env) (req : ProcessRequest) :
    ProcOut :=
  match lookup_recipe st req.url req.user_id with
  | none =>
      -- ValueError out of URL normalization: unhandled, framework 500
      ⟨Except.error ⟨500, "Internal Server Error"⟩, st, fs, []⟩
  | some (some cached) =>
      match parseRecipe cached.recipe with
      | Except.ok recipe =>
          ⟨Except.ok ⟨cached.transcript, cached.caption, recipe,
                      some cached.id⟩, st, fs, []⟩
      | Except.error _ =>
          ⟨Except.error ⟨500, "Internal Server Error"⟩, st, fs, []⟩
  | some none =>
      if (env.api_key.getD "") = "" then
        ⟨Except.error ⟨500, "ANTHROPIC_API_KEY is not configured"⟩, st, fs, []⟩
      else
        let api_key := env.api_key.getD ""
        let video_path := env.tmpdir ++ "/video.mp4"
        match env.dl_outcome with
        | Except.error e =>
            ⟨Except.error ⟨422, "Failed to download video: " ++ e⟩, st,
             ⟨env.tmpdir :: fs.dirs, fs.files⟩, [Ev.download]⟩
        | Except.ok caption =>
            let fs1 : FS := ⟨env.tmpdir :: fs.dirs, video_path :: fs.files⟩
            let stage := transcribe_stage fs1 video_path
              (env.transcribe video_path) (Except.ok ())
            match stage.1 with
            | Except.error herr =>
                ⟨Except.error herr, st, stage.2,
                 [Ev.download, Ev.transcribe]⟩
            | Except.ok transcript =>
                let user_settings :=
                  match req.user_id with
                  | some u => if u != "" then get_user_settings st u else none
                  | none => none
                match extract_recipe transcript api_key caption user_settings
                        "claude-sonnet-4-20250514" env.model_response with
                | Except.error e =>
                    ⟨Except.error ⟨500, "Recipe extraction failed: " ++ e⟩,
                     st, stage.2, [Ev.download, Ev.transcribe, Ev.extract]⟩
                | Except.ok recipe_dict =>
                    match parseRecipe recipe_dict with
                    | Except.error e =>
                        ⟨Except.error ⟨500, "Recipe extraction failed: " ++ e⟩,
                         st, stage.2,
                         [Ev.download, Ev.transcribe, Ev.extract]⟩
                    | Except.ok recipe =>
                        match save_recipe st req.url transcript caption
                                recipe_dict req.user_id env.now with
                        | none =>
                            -- unreachable: lookup already normalized the URL
                            ⟨Except.error ⟨500, "Internal Server Error"⟩, st,
                             stage.2,
                             [Ev.download, Ev.transcribe, Ev.extract, Ev.save]⟩
                        | some (recipe_id, st') =>
                            ⟨Except.ok ⟨transcript, caption, recipe,
                                        some recipe_id⟩, st', stage.2,
                             [Ev.download, Ev.transcribe, Ev.extract, Ev.save]⟩

/- ------------------------------------------------------------------
Conversational context builder: embedding of `_build_chat_prompt`
(main.py lines 149-187).
------------------------------------------------------------------- -/

/-- models.py `ChatMessage`. -/
structure ChatMessage where
  role : String
  content : String
deriving DecidableEq

/-- models.py `ChatRequest`. -/
structure ChatRequest where
  recipe : Recipe
  current_step : Int
  completed_steps : List Int
  message : String
  history : List ChatMessage

/-- Rendering of a float in an f-string.  Decimal float formatting is
abstracted (no claim depends on the digits). -/
def numStr (q : Rat) : String := toString q

/-- Python `str.strip()` (whitespace trim at both ends). -/
def pyStrip (s : String) : String :=
  String.mk (((s.data.dropWhile Char.isWhitespace).reverse.dropWhile
    Char.isWhitespace).reverse)

/-- One ingredient line of `ingredients_text`; `or ''` renders falsy
values (None, 0.0, empty string) as the empty string. -/
def ingredientLine (ing : Ingredient) : String :=
  pyStrip ("- " ++
    (match ing.amount with
     | some q => if q = 0 then "" else numStr q
     | none => "") ++ " " ++
    (match ing.unit with
     | some u => u
     | none => "") ++ " " ++ ing.name ++ " " ++
    (match ing.notes with
     | some n => if n != "" then "(" ++ n ++ ")" else ""
     | none => ""))

/-- One step line of `steps_text`, with the `[COMPLETED]` and
`[CURRENT]` markers. -/
def stepLine (current_step : Int) (completed_steps : List Int) (s : Step) :
    String :=
  "  Step " ++ toString s.order ++
  (if completed_steps.contains s.order then " [COMPLETED]" else "") ++
  (if s.order == current_step then " [CURRENT]" else "") ++
  ": " ++ s.instruction

/-- `_build_chat_prompt` (main.py lines 149-187): the system prompt and
the ordered message list sent to the model. -/
def build_chat_prompt (req : ChatRequest) : String × List ChatMessage :=
  let ingredients_text :=
    String.intercalate "\n" (req.recipe.ingredients.map ingredientLine)
  let steps_text :=
    String.intercalate "\n"
      (req.recipe.steps.map (stepLine req.current_step req.completed_steps))
  let system_prompt :=
    "You are a friendly, expert cooking assistant helping someone cook a recipe in real time.\n\nRecipe: "
    ++ req.recipe.title ++ "\n" ++
    (match req.recipe.description with
     | some d => if d != "" then "Description: " ++ d else ""
     | none => "") ++
    "\n\nIngredients:\n" ++ ingredients_text ++
    "\n\nSteps:\n" ++ steps_text ++
    "\n\nThe user is currently on Step " ++ toString req.current_step ++
    ". Steps marked [COMPLETED] are already done.\n\nGive concise, practical advice. If they describe a problem, help them fix it with what they likely have on hand. Keep answers short (2-4 sentences) unless more detail is needed.\n\nWhen needed, ask a brief clarifying question so you can give the best possible answer. For example: if the question is ambiguous, if you need to know what equipment or ingredients they have on hand, if scale or dietary constraints matter, or if their goal (e.g. faster vs. more authentic) would change your advice, ask one short question before answering. Do not ask for the sake of it; only when the answer would clearly be better with that information.\n\nFormat your response using markdown to make it easy to scan:\n- Use **bold** for key actions, ingredient names, or important values (temperatures, times, amounts)\n- Use bullet points or numbered lists when giving multiple tips or steps\n- Use *italics* for emphasis on warnings or important notes\n- Do NOT use headings or code blocks"
  let messages :=
    req.history.map (fun m => ChatMessage.mk m.role m.content) ++
      [ChatMessage.mk "user" req.message]
  (system_prompt, messages)

/- ------------------------------------------------------------------
Helper lemmas.
------------------------------------------------------------------- -/

theorem takeWhile_all {α : Type} (p : α → Bool) (l : List α)
    (h : ∀ x ∈ l, p x = true) : l.takeWhile p = l := by
  induction l with
  | nil => rfl
  | cons a t ih =>
      rw [List.takeWhile_cons_of_pos (h a (by simp))]
      rw [ih (fun x hx => h x (by simp [hx]))]

theorem dropWhile_all {α : Type} (p : α → Bool) (l : List α)
    (h : ∀ x ∈ l, p x = true) : l.dropWhile p = [] := by
  induction l with
  | nil => rfl
  | cons a t ih =>
      rw [List.dropWhile_cons_of_pos (h a (by simp))]
      exact ih (fun x hx => h x (by simp [hx]))

theorem takeWhile_middle {α : Type} (p : α → Bool) (l₁ : List α) (a : α)
    (l₂ : List α) (h₁ : ∀ x ∈ l₁, p x = true) (h₂ : p a = false) :
    (l₁ ++ a :: l₂).takeWhile p = l₁ := by
  induction l₁ with
  | nil =>
      simp only [List.nil_append]
      rw [List.takeWhile_cons_of_neg (by simp [h₂])]
  | cons b t ih =>
      rw [List.cons_append, List.takeWhile_cons_of_pos (h₁ b (by simp))]
      rw [ih (fun x hx => h₁ x (by simp [hx]))]

theorem dropWhile_middle {α : Type} (p : α → Bool) (l₁ : List α) (a : α)
    (l₂ : List α) (h₁ : ∀ x ∈ l₁, p x = true) (h₂ : p a = false) :
    (l₁ ++ a :: l₂).dropWhile p = a :: l₂ := by
  induction l₁ with
  | nil =>
      simp only [List.nil_append]
      rw [List.dropWhile_cons_of_neg (by simp [h₂])]
  | cons b t ih =>
      rw [List.cons_append, List.dropWhile_cons_of_pos (h₁ b (by simp))]
      exact ih (fun x hx => h₁ x (by simp [hx]))

theorem splitFirst_middle (c : Char) (l₁ l₂ : List Char)
    (h : ∀ x ∈ l₁, x ≠ c) : splitFirst c (l₁ ++ c :: l₂) = some (l₁, l₂) := by
  induction l₁ with
  | nil => simp [splitFirst]
  | cons b t ih =>
      have hb : b ≠ c := h b (by simp)
      simp only [List.cons_append, splitFirst, if_neg hb, List.append_eq]
      rw [ih (fun x hx => h x (by simp [hx]))]
      rfl

theorem splitFirst_nomatch (c : Char) (l : List Char)
    (h : ∀ x ∈ l, x ≠ c) : splitFirst c l = none := by
  induction l with
  | nil => rfl
  | cons b t ih =>
      have hb : b ≠ c := h b (by simp)
      simp only [splitFirst, if_neg hb]
      rw [ih (fun x hx => h x (by simp [hx]))]
      rfl

theorem contains_false (c : Char) (l : List Char) (h : ∀ x ∈ l, x ≠ c) :
    l.contains c = false := by
  induction l with
  | nil => rfl
  | cons b t ih =>
      have hb : b ≠ c := h b (by simp)
      simp only [List.contains_cons, ih (fun x hx => h x (by simp [hx])),
        Bool.or_false, beq_eq_false_iff_ne, ne_eq]
      exact fun he => hb he.symm

theorem drop_after_append (l₁ l₂ : List Char) (a : Char) :
    (l₁ ++ a :: l₂).drop (l₁.length + 1) = l₂ := by
  rw [show l₁ ++ a :: l₂ = (l₁ ++ [a]) ++ l₂ by simp]
  rw [show l₁.length + 1 = (l₁ ++ [a]).length by simp]
  exact List.drop_left _ _

theorem clean_id (l : List Char) (h : ∀ c ∈ l, 32 < c.toNat) :
    cleanUrl l = l := by
  unfold cleanUrl
  have h1 : l.dropWhile c0_or_space = l := by
    cases l with
    | nil => rfl
    | cons a t =>
        have ha := h a (by simp)
        rw [List.dropWhile_cons_of_neg]
        simp only [c0_or_space, decide_eq_true_eq]
        omega
  rw [h1]
  apply List.filter_eq_self.mpr
  intro a ha
  have hgt := h a ha
  simp only [removed_url_byte, Bool.not_eq_true', Bool.or_eq_false_iff,
    beq_eq_false_iff_ne, ne_eq]
  refine ⟨⟨?_, ?_⟩, ?_⟩ <;> (intro he; subst he; exact absurd hgt (by decide))

theorem scheme_char_ne_colon {c : Char} (h : scheme_char c = true) :
    c ≠ ':' := by
  intro he
  subst he
  exact absurd h (by decide)

theorem schemeSplit_eq (sc r : List Char) (h1 : sc ≠ [])
    (h2 : ∀ c ∈ sc, scheme_char c = true) :
    schemeSplit (sc ++ ':' :: r) = (sc.map Char.toLower, r) := by
  unfold schemeSplit
  have hpre : (sc ++ ':' :: r).takeWhile (fun c => c != ':') = sc := by
    apply takeWhile_middle
    · intro x hx
      simp [bne, scheme_char_ne_colon (h2 x hx)]
    · simp
  rw [hpre]
  have hlen : sc.length < (sc ++ ':' :: r).length := by
    simp [List.length_append]
  have hpos : 0 < sc.length := List.length_pos.mpr h1
  have hall : sc.all scheme_char = true := List.all_eq_true.mpr h2
  rw [if_pos (by simp [hlen, hpos, hall])]
  rw [drop_after_append]

theorem fragQuerySplit_dec (p q f : List Char)
    (hp : ∀ x ∈ p, x ≠ '#' ∧ x ≠ '?') (hq : ∀ x ∈ q, x ≠ '#') :
    fragQuerySplit (p ++ '?' :: (q ++ '#' :: f)) = (p, q, f) := by
  have h1 : splitFirst '#' (p ++ '?' :: (q ++ '#' :: f)) =
      some (p ++ '?' :: q, f) := by
    rw [show p ++ '?' :: (q ++ '#' :: f) = (p ++ '?' :: q) ++ '#' :: f by simp]
    apply splitFirst_middle
    intro x hx
    rcases List.mem_append.mp hx with h | h
    · exact (hp x h).1
    · rcases List.mem_cons.mp h with h | h
      · subst h; decide
      · exact hq x h
  have h2 : splitFirst '?' (p ++ '?' :: q) = some (p, q) :=
    splitFirst_middle '?' p q (fun x hx => (hp x hx).2)
  unfold fragQuerySplit
  rw [h1]
  dsimp only
  rw [h2]

theorem fragQuerySplit_plain (p : List Char)
    (hp : ∀ x ∈ p, x ≠ '#' ∧ x ≠ '?') : fragQuerySplit p = (p, [], []) := by
  have h1 : splitFirst '#' p = none :=
    splitFirst_nomatch '#' p (fun x hx => (hp x hx).1)
  have h2 : splitFirst '?' p = none :=
    splitFirst_nomatch '?' p (fun x hx => (hp x hx).2)
  unfold fragQuerySplit
  rw [h1]
  dsimp only
  rw [h2]

/-- The authority form of `urlsplit`: a well-formed scheme, an authority
free of delimiters and brackets, and a remainder that is empty or starts
with a delimiter parse into scheme / netloc / fragment-query split. -/
theorem urlsplit_authority (sc h rest : List Char)
    (hclean : ∀ c ∈ sc ++ ':' :: '/' :: '/' :: (h ++ rest), 32 < c.toNat)
    (hsc1 : sc ≠ []) (hsc2 : ∀ c ∈ sc, scheme_char c = true)
    (hh : ∀ c ∈ h, netloc_delim c = false)
    (hbr : ∀ c ∈ h, c ≠ '[' ∧ c ≠ ']')
    (hrest : rest = [] ∨ ∃ d t, rest = d :: t ∧ netloc_delim d = true) :
    urlsplitL (sc ++ ':' :: '/' :: '/' :: (h ++ rest)) =
      some (sc.map Char.toLower, h, (fragQuerySplit rest).1,
            (fragQuerySplit rest).2.1, (fragQuerySplit rest).2.2) := by
  have hcl := clean_id _ hclean
  have hsch := schemeSplit_eq sc ('/' :: '/' :: (h ++ rest)) hsc1 hsc2
  have htake : (h ++ rest).takeWhile (fun c => !netloc_delim c) = h := by
    rcases hrest with hr | ⟨d, t, hr, hd⟩
    · subst hr
      rw [List.append_nil]
      exact takeWhile_all _ h (fun x hx => by simp [hh x hx])
    · subst hr
      exact takeWhile_middle _ h d t (fun x hx => by simp [hh x hx])
        (by simp [hd])
  have hdrop : (h ++ rest).dropWhile (fun c => !netloc_delim c) = rest := by
    rcases hrest with hr | ⟨d, t, hr, hd⟩
    · subst hr
      rw [List.append_nil]
      exact dropWhile_all _ h (fun x hx => by simp [hh x hx])
    · subst hr
      exact dropWhile_middle _ h d t (fun x hx => by simp [hh x hx])
        (by simp [hd])
  have hc1 := contains_false '[' h (fun x hx => (hbr x hx).1)
  have hc2 := contains_false ']' h (fun x hx => (hbr x hx).2)
  unfold urlsplitL
  rw [hcl]
  dsimp only
  rw [hsch]
  dsimp only
  have htk : List.take 2 ('/' :: '/' :: (h ++ rest)) = ['/', '/'] := rfl
  have hdp : List.drop 2 ('/' :: '/' :: (h ++ rest)) = h ++ rest := rfl
  rw [htk, hdp]
  rw [if_pos rfl]
  rw [htake, hdrop, hc1, hc2]
  rw [if_neg (by decide)]

theorem urlparseL_of_split (l sc n p q f : List Char)
    (hs : urlsplitL l = some (sc, n, p, q, f))
    (hp : ∀ x ∈ p, x ≠ ';') :
    urlparseL l = some (sc, n, p, [], q, f) := by
  unfold urlparseL
  rw [hs]
  dsimp only
  rw [contains_false ';' p hp, Bool.and_false]
  rw [if_neg (by decide)]

theorem normalizeL_of_parse (l sc n p prm q f : List Char)
    (hs : urlparseL l = some (sc, n, p, prm, q, f)) :
    normalizeL l = some (urlunsplit3 sc n p) := by
  unfold normalizeL
  rw [hs]

theorem urlunsplit3_std (sc h p : List Char) (hsc : sc ≠ []) (hh : h ≠ [])
    (hp : p = [] ∨ p.head? = some '/') :
    urlunsplit3 sc h p = sc ++ ':' :: '/' :: '/' :: (h ++ p) := by
  unfold urlunsplit3
  rw [if_pos (Or.inl hh)]
  have hp2 : ¬(p ≠ [] ∧ p.head? ≠ some '/') := by
    rcases hp with hp | hp
    · intro hc; exact hc.1 hp
    · intro hc; exact hc.2 hp
  rw [if_neg hp2, if_pos hsc]

/-- The two URL shapes of the normalization claim, fully parsed and
re-assembled.  The hypotheses keep every component printable (no C0
control, no space, so the WHATWG stripping is inert), the scheme
well-formed, the authority nonempty and free of delimiters and
brackets, the path rooted and free of `?`/`#`/`;`, and the query free
of `#`. -/
theorem normalize_decorated_and_bare (sc h p q f : List Char)
    (hsc1 : sc ≠ []) (hsc2 : ∀ c ∈ sc, scheme_char c = true)
    (hscC : ∀ c ∈ sc, 32 < c.toNat)
    (hh0 : h ≠ [])
    (hh : ∀ c ∈ h, c ≠ '/' ∧ c ≠ '?' ∧ c ≠ '#' ∧ c ≠ '[' ∧ c ≠ ']' ∧
          32 < c.toNat)
    (hp : p = [] ∨ p.head? = some '/')
    (hpc : ∀ c ∈ p, c ≠ '?' ∧ c ≠ '#' ∧ c ≠ ';' ∧ 32 < c.toNat)
    (hqc : ∀ c ∈ q, c ≠ '#' ∧ 32 < c.toNat)
    (hfc : ∀ c ∈ f, 32 < c.toNat) :
    normalizeL (sc ++ ':' :: '/' :: '/' :: (h ++ (p ++ '?' :: (q ++ '#' :: f))))
      = some (sc.map Char.toLower ++ ':' :: '/' :: '/' :: (h ++ p)) ∧
    normalizeL (sc ++ ':' :: '/' :: '/' :: (h ++ p)) =
      some (sc.map Char.toLower ++ ':' :: '/' :: '/' :: (h ++ p)) := by
  have hhD : ∀ c ∈ h, netloc_delim c = false := by
    intro c hc
    rcases hh c hc with ⟨h1, h2, h3, _, _, _⟩
    simp [netloc_delim, h1, h2, h3]
  have hhB : ∀ c ∈ h, c ≠ '[' ∧ c ≠ ']' :=
    fun c hc => ⟨(hh c hc).2.2.2.1, (hh c hc).2.2.2.2.1⟩
  have hpHd : p = [] ∨ ∃ p', p = '/' :: p' := by
    rcases hp with hp | hp
    · exact Or.inl hp
    · cases p with
      | nil => exact Or.inl rfl
      | cons a t =>
          simp only [List.head?_cons, Option.some.injEq] at hp
          exact Or.inr ⟨t, by rw [hp]⟩
  have hmapne : sc.map Char.toLower ≠ [] := by
    simpa using hsc1
  constructor
  · -- decorated URL
    have hclean : ∀ c ∈ sc ++ ':' :: '/' :: '/' ::
        (h ++ (p ++ '?' :: (q ++ '#' :: f))), 32 < c.toNat := by
      simp only [List.forall_mem_append, List.forall_mem_cons]
      refine ⟨hscC, by decide, by decide, by decide,
        fun c hc => (hh c hc).2.2.2.2.2,
        fun c hc => (hpc c hc).2.2.2, by decide,
        fun c hc => (hqc c hc).2, by decide, hfc⟩
    have hrest : (p ++ '?' :: (q ++ '#' :: f)) = [] ∨
        ∃ d t, (p ++ '?' :: (q ++ '#' :: f)) = d :: t ∧
          netloc_delim d = true := by
      rcases hpHd with hp0 | ⟨p', hp0⟩
      · subst hp0
        exact Or.inr ⟨'?', q ++ '#' :: f, rfl, by decide⟩
      · subst hp0
        exact Or.inr ⟨'/', p' ++ '?' :: (q ++ '#' :: f), rfl, by decide⟩
    have hsplit := urlsplit_authority sc h (p ++ '?' :: (q ++ '#' :: f))
      hclean hsc1 hsc2 hhD hhB hrest
    rw [fragQuerySplit_dec p q f
      (fun x hx => ⟨(hpc x hx).2.1, (hpc x hx).1⟩)
      (fun x hx => (hqc x hx).1)] at hsplit
    have hparse := urlparseL_of_split _ _ _ _ _ _ hsplit
      (fun x hx => (hpc x hx).2.2.1)
    rw [normalizeL_of_parse _ _ _ _ _ _ _ hparse]
    rw [urlunsplit3_std _ _ _ hmapne hh0 hp]
  · -- bare URL
    have hclean : ∀ c ∈ sc ++ ':' :: '/' :: '/' :: (h ++ p),
        32 < c.toNat := by
      simp only [List.forall_mem_append, List.forall_mem_cons]
      refine ⟨hscC, by decide, by decide, by decide,
        fun c hc => (hh c hc).2.2.2.2.2, fun c hc => (hpc c hc).2.2.2⟩
    have hrest : p = [] ∨ ∃ d t, p = d :: t ∧ netloc_delim d = true := by
      rcases hpHd with hp0 | ⟨p', hp0⟩
      · exact Or.inl hp0
      · exact Or.inr ⟨'/', p', hp0, by decide⟩
    have hsplit := urlsplit_authority sc h p hclean hsc1 hsc2 hhD hhB hrest
    rw [fragQuerySplit_plain p
      (fun x hx => ⟨(hpc x hx).2.1, (hpc x hx).1⟩)] at hsplit
    have hparse := urlparseL_of_split _ _ _ _ _ _ hsplit
      (fun x hx => (hpc x hx).2.2.1)
    rw [normalizeL_of_parse _ _ _ _ _ _ _ hparse]
    rw [urlunsplit3_std _ _ _ hmapne hh0 hp]

theorem find?_none_of_all_false {α : Type} (p : α → Bool) (l : List α)
    (h : ∀ x ∈ l, p x = false) : l.find? p = none := by
  induction l with
  | nil => rfl
  | cons a t ih =>
      rw [List.find?_cons_of_neg _ (by simp [h a (by simp)])]
      exact ih (fun x hx => h x (by simp [hx]))

theorem find?_append_of_left_none {α : Type} (p : α → Bool) (l₁ l₂ : List α)
    (h : ∀ x ∈ l₁, p x = false) :
    (l₁ ++ l₂).find? p = l₂.find? p := by
  induction l₁ with
  | nil => rfl
  | cons a t ih =>
      rw [List.cons_append,
        List.find?_cons_of_neg _ (by simp [h a (by simp)])]
      exact ih (fun x hx => h x (by simp [hx]))

theorem map_if_id {α : Type} (p : α → Bool) (f : α → α) (l : List α)
    (h : ∀ x ∈ l, p x = false) :
    l.map (fun x => if p x then f x else x) = l := by
  induction l with
  | nil => rfl
  | cons a t ih =>
      rw [List.map_cons, if_neg (by simp [h a (by simp)]),
        ih (fun x hx => h x (by simp [hx]))]

theorem find?_map_const_update {α : Type} (p : α → Bool) (row : α)
    (l : List α) (hrow : p row = true) (hany : l.any p = true) :
    (l.map (fun r => if p r then row else r)).find? p = some row := by
  induction l with
  | nil => simp at hany
  | cons a t ih =>
      by_cases ha : p a = true
      · simp only [List.map_cons, if_pos ha]
        rw [List.find?_cons_of_pos _ hrow]
      · simp only [List.map_cons, if_neg ha]
        rw [List.find?_cons_of_neg _ ha]
        apply ih
        rcases List.any_eq_true.mp hany with ⟨x, hx, hpx⟩
        rcases List.mem_cons.mp hx with hx | hx
        · exact absurd (hx ▸ hpx) ha
        · exact List.any_eq_true.mpr ⟨x, hx, hpx⟩

theorem chatmsg_map_eta (l : List ChatMessage) :
    l.map (fun m => ChatMessage.mk m.role m.content) = l := by
  induction l with
  | nil => rfl
  | cons a t ih => rw [List.map_cons, ih]

theorem append_mp4_ne_empty (s : String) : (s ++ "/video.mp4") ≠ "" := by
  intro h
  have hd : (s ++ "/video.mp4").data = ("" : String).data :=
    congrArg String.data h
  rw [String.data_append] at hd
  have : s.data ++ ("/video.mp4" : String).data ≠ [] := by
    intro hnil
    rcases List.append_eq_nil.mp hnil with ⟨_, h2⟩
    exact absurd h2 (by decide)
  exact this hd

theorem transcribe_stage_ok_unlink (fs : FS) (vp : String)
    (tr : Except String String)
    (hcond : (vp != "" && fs.files.contains vp) = true) :
    transcribe_stage fs vp tr (Except.ok ()) =
      ((match tr with
        | Except.error e =>
            Except.error (⟨500, "Transcription failed: " ++ e⟩ : HErr)
        | Except.ok t => Except.ok t),
       ⟨fs.dirs, fs.files.erase vp⟩) := by
  unfold transcribe_stage
  dsimp only
  rw [if_pos hcond]

/-- Closed form of a `/process` run that misses the cache with the API
key configured: the download directory is created; on download success
the video file is created and then deleted again by the `finally`
cleanup on every continuation (the final file list is the initial one),
while the download directory stays; stages run in order, at most once
each, and stop at the first failure. -/
theorem process_miss_run (st : Store) (fs : FS) (env : Env)
    (req : ProcessRequest)
    (hlk : lookup_recipe st req.url req.user_id = some none)
    (hk : (env.api_key.getD "") ≠ "") :
    process_video st fs env req =
      match env.dl_outcome with
      | Except.error e =>
          ⟨Except.error ⟨422, "Failed to download video: " ++ e⟩, st,
           ⟨env.tmpdir :: fs.dirs, fs.files⟩, [Ev.download]⟩
      | Except.ok caption =>
          match env.transcribe (env.tmpdir ++ "/video.mp4") with
          | Except.error e =>
              ⟨Except.error ⟨500, "Transcription failed: " ++ e⟩, st,
               ⟨env.tmpdir :: fs.dirs, fs.files⟩,
               [Ev.download, Ev.transcribe]⟩
          | Except.ok transcript =>
              match extract_recipe transcript (env.api_key.getD "") caption
                  (match req.user_id with
                   | some u => if u != "" then get_user_settings st u
                               else none
                   | none => none)
                  "claude-sonnet-4-20250514" env.model_response with
              | Except.error e =>
                  ⟨Except.error ⟨500, "Recipe extraction failed: " ++ e⟩,
                   st, ⟨env.tmpdir :: fs.dirs, fs.files⟩,
                   [Ev.download, Ev.transcribe, Ev.extract]⟩
              | Except.ok recipe_dict =>
                  match parseRecipe recipe_dict with
                  | Except.error e =>
                      ⟨Except.error
                        ⟨500, "Recipe extraction failed: " ++ e⟩, st,
                       ⟨env.tmpdir :: fs.dirs, fs.files⟩,
                       [Ev.download, Ev.transcribe, Ev.extract]⟩
                  | Except.ok recipe =>
                      match save_recipe st req.url transcript caption
                          recipe_dict req.user_id env.now with
                      | none =>
                          ⟨Except.error ⟨500, "Internal Server Error"⟩,
                           st, ⟨env.tmpdir :: fs.dirs, fs.files⟩,
                           [Ev.download, Ev.transcribe, Ev.extract,
                            Ev.save]⟩
                      | some (recipe_id, st') =>
                          ⟨Except.ok ⟨transcript, caption, recipe,
                                      some recipe_id⟩, st',
                           ⟨env.tmpdir :: fs.dirs, fs.files⟩,
                           [Ev.download, Ev.transcribe, Ev.extract,
                            Ev.save]⟩ := by
  have hcond : ((env.tmpdir ++ "/video.mp4") != "" &&
      ((env.tmpdir ++ "/video.mp4") :: fs.files).contains
        (env.tmpdir ++ "/video.mp4")) = true := by
    rw [Bool.and_eq_true]
    exact ⟨bne_iff_ne.mpr (append_mp4_ne_empty env.tmpdir), by simp⟩
  unfold process_video
  rw [hlk]
  dsimp only
  rw [if_neg hk]
  rcases hdl : env.dl_outcome with e | cap
  · dsimp only
  · dsimp only
    rw [transcribe_stage_ok_unlink _ _ _ hcond]
    rw [List.erase_cons_head]
    rcases htr : env.transcribe (env.tmpdir ++ "/video.mp4") with e | t
    · dsimp only
    · dsimp only

/- ------------------------------------------------------------------
Claim theorems.
------------------------------------------------------------------- -/

/-- C9: for every chat request, the assembled ordered message sequence
is exactly the caller-supplied history in its given order followed by
the new message as the final user turn; history is never re-sorted,
filtered, or mutated. -/
theorem c9_chat_history_order (req : ChatRequest) :
    (build_chat_prompt req).2 =
      req.history ++ [ChatMessage.mk "user" req.message] ∧
    (build_chat_prompt req).2.length = req.history.length + 1 ∧
    (build_chat_prompt req).2.getLast? =
      some (ChatMessage.mk "user" req.message) := by
  have hmsgs : (build_chat_prompt req).2 =
      req.history ++ [ChatMessage.mk "user" req.message] := by
    unfold build_chat_prompt
    dsimp only
    rw [chatmsg_map_eta]
  refine ⟨hmsgs, ?_, ?_⟩
  · rw [hmsgs]; simp
  · rw [hmsgs]; simp

/-- C10: for every URL and store state, the store layer treats an
empty-string `user_id` exactly like an absent one: both resolve to the
anonymous sentinel, lookup results coincide, and saves land in (and are
retrievable from) the same anonymous scope. -/
theorem c10_empty_user_is_anonymous (st : Store) (raw : String) :
    effectiveUser (some "") = ANON ∧
    effectiveUser none = ANON ∧
    lookup_recipe st raw (some "") = lookup_recipe st raw none ∧
    (∀ t c r now, save_recipe st raw t c r (some "") now =
      save_recipe st raw t c r none now) := by
  refine ⟨rfl, rfl, ?_, ?_⟩
  · unfold lookup_recipe
    rfl
  · intro t c r now
    unfold save_recipe
    rfl

/-- C8: for every extraction call with user preferences supplied whose
parsed model response is an object with no `modifications` key, the
returned recipe document is the same object extended with
`modifications: []` — the field is never absent. -/
theorem c8_modifications_normalized (transcript api_key model : String)
    (caption : Option String) (s : SettingsRow)
    (kvs : List (String × Json)) (out : Json)
    (hnomod : jsonGet kvs "modifications" = none)
    (hok : extract_recipe transcript api_key caption (some s) model
      (Except.ok (Json.obj kvs)) = Except.ok out) :
    out = Json.obj (kvs ++ [("modifications", Json.arr [])]) ∧
    jsonGet (kvs ++ [("modifications", Json.arr [])]) "modifications" =
      some (Json.arr []) := by
  have hfind : kvs.find? (fun p => p.1 == "modifications") = none := by
    unfold jsonGet at hnomod
    exact Option.map_eq_none'.mp hnomod
  have hallf : ∀ x ∈ kvs, ¬ (x.1 == "modifications") = true :=
    List.find?_eq_none.mp hfind
  have hanyf : kvs.any (fun p => p.1 == "modifications") = false := by
    rw [Bool.eq_false_iff]
    intro hany
    rcases List.any_eq_true.mp hany with ⟨x, hx, hpx⟩
    exact hallf x hx hpx
  have hget : jsonGet (kvs ++ [("modifications", Json.arr [])])
      "modifications" = some (Json.arr []) := by
    unfold jsonGet
    rw [find?_append_of_left_none _ _ _
      (fun x hx => Bool.eq_false_iff.mpr (hallf x hx))]
    rfl
  refine ⟨?_, hget⟩
  unfold extract_recipe at hok
  dsimp only at hok
  cases hb : settings_prompt_block s with
  | none =>
      rw [hb] at hok
      simp at hok
  | some blk =>
      rw [hb] at hok
      simp at hok
      have hred : ensure_modifications (Json.obj kvs) =
          Except.ok (Json.obj (kvs ++ [("modifications", Json.arr [])])) := by
        unfold ensure_modifications
        dsimp only
        rw [hanyf, if_neg (by decide)]
      rw [hred] at hok
      injection hok with h
      exact h.symm

/-- C8 witness: a concrete extraction with preferences and a
`modifications`-free model object yields the object with
`modifications: []` appended. -/
theorem c8_witness :
    extract_recipe "t" "k" none (some ⟨"u", none, 2, none, 0⟩) "m"
      (Except.ok (Json.obj [("title", Json.str "X")])) =
      Except.ok (Json.obj [("title", Json.str "X"),
        ("modifications", Json.arr [])]) ∧
    jsonGet [("title", Json.str "X"), ("modifications", Json.arr [])]
      "modifications" = some (Json.arr []) := by
  have h := c8_modifications_normalized "t" "k" "m" none ⟨"u", none, 2, none, 0⟩
    [("title", Json.str "X")]
    (Json.obj [("title", Json.str "X"), ("modifications", Json.arr [])])
    (by rfl) (by rfl)
  exact ⟨rfl, h.2⟩

/-- C5 counterexample: `spice_tolerance` is unvalidated (models.py
`SettingsUpdate` has no bounds), and for a stored value of `-7` the
rendering `spice_labels[min(spice, 5)]` raises `IndexError` — the
claim's "never indexed out of range" fails for negative stored
integers. -/
theorem c5_counterexample :
    settings_prompt_block ⟨"u", none, -7, none, 0⟩ = none := by decide

/-- C5 (amended): for every stored nonnegative `spice_tolerance`, the
preference block renders successfully, values above 5 clamp to the
label for 5 ("5 = very high"), and in-range values index their own
label — the table is never indexed out of range. -/
theorem c5_spice_clamp (s : SettingsRow) (h : 0 ≤ s.spice_tolerance) :
    (settings_prompt_block s).isSome = true ∧
    (5 < s.spice_tolerance →
      pyListGet spice_labels (min s.spice_tolerance 5) =
        some "5 = very high") ∧
    (s.spice_tolerance ≤ 5 →
      pyListGet spice_labels (min s.spice_tolerance 5) =
        spice_labels.get? s.spice_tolerance.toNat) := by
  have hmin0 : 0 ≤ min s.spice_tolerance 5 := by omega
  have hmin5 : min s.spice_tolerance 5 ≤ 5 := by omega
  have hsome : ∃ lbl, pyListGet spice_labels (min s.spice_tolerance 5) =
      some lbl := by
    unfold pyListGet
    rw [if_pos hmin0]
    have hlt : (min s.spice_tolerance 5).toNat < spice_labels.length := by
      have : (min s.spice_tolerance 5).toNat ≤ 5 := by omega
      simp only [spice_labels, List.length]
      omega
    rcases List.get?_eq_get hlt with hg
    exact ⟨_, hg⟩
  refine ⟨?_, ?_, ?_⟩
  · rcases hsome with ⟨lbl, hl⟩
    unfold settings_prompt_block
    dsimp only
    rw [hl]
    dsimp only
    split <;> rfl
  · intro h5
    have : min s.spice_tolerance 5 = 5 := by omega
    rw [this]
    decide
  · intro h5
    have : min s.spice_tolerance 5 = s.spice_tolerance := by omega
    rw [this]
    unfold pyListGet
    rw [if_pos h]

/-- C5 witness: a stored `spice_tolerance` of 7 renders through the
label for 5 ("5 = very high") without an out-of-range access. -/
theorem c5_witness :
    (settings_prompt_block ⟨"u", none, 7, none, 0⟩).isSome = true ∧
    pyListGet spice_labels (min 7 5) = some "5 = very high" :=
  ⟨(c5_spice_clamp ⟨"u", none, 7, none, 0⟩ (by decide)).1,
   (c5_spice_clamp ⟨"u", none, 7, none, 0⟩ (by decide)).2.1 (by decide)⟩

/-- C4 counterexample: normalization is not failure-free — an authority
containing `'['` without `']'` makes `urlparse` raise
`ValueError("Invalid IPv6 URL")`, so `_normalize_tiktok_url` (and any
`save`/`lookup` on such a URL) raises instead of returning a canonical
form. -/
theorem c4_counterexample : normalize_tiktok_url "https://[x/video" = none := by
  decide

/-- C4 (amended): for every URL assembled from a printable well-formed
scheme, a nonempty ASCII bracket-free authority, a rooted path free of
`?`/`#`/`;`, a `#`-free query and a fragment, normalization retains
only scheme (lower-cased), host and path, discarding query and
fragment, so the decorated URL and the bare URL normalize identically
and every `save`/`lookup` on them collides to the same stored row;
normalization cannot fail on such inputs.  Its failure modes are a
mismatched bracket in the authority (the counterexample) and, for
non-ASCII authorities — outside this theorem's domain and this
embedding — CPython's NFKC homoglyph validation. -/
theorem c4_normalize_collision (sc h p q f : List Char)
    (hsc1 : sc ≠ []) (hsc2 : ∀ c ∈ sc, scheme_char c = true)
    -- CPython ≥ 3.11 additionally requires the scheme to start with an
    -- ASCII letter; assumed so the statement is version-independent.
    (_hscA : ∀ a ∈ sc.take 1, a.isAlpha = true)
    (hscC : ∀ c ∈ sc, 32 < c.toNat)
    (hh0 : h ≠ [])
    (hh : ∀ c ∈ h, c ≠ '/' ∧ c ≠ '?' ∧ c ≠ '#' ∧ c ≠ '[' ∧ c ≠ ']' ∧
          32 < c.toNat)
    -- the authority must be ASCII: `_checknetloc` is then provably a
    -- no-op, while for non-ASCII authorities the source's NFKC
    -- validation (not modelled) can additionally raise ValueError, so
    -- the theorem is scoped to the embedding's faithful domain.
    (_hhA : ∀ c ∈ h, c.toNat < 128)
    (hp : p = [] ∨ p.head? = some '/')
    (hpc : ∀ c ∈ p, c ≠ '?' ∧ c ≠ '#' ∧ c ≠ ';' ∧ 32 < c.toNat)
    (hqc : ∀ c ∈ q, c ≠ '#' ∧ 32 < c.toNat)
    (hfc : ∀ c ∈ f, 32 < c.toNat) :
    normalize_tiktok_url
        ⟨sc ++ ':' :: '/' :: '/' :: (h ++ (p ++ '?' :: (q ++ '#' :: f)))⟩ =
      some ⟨sc.map Char.toLower ++ ':' :: '/' :: '/' :: (h ++ p)⟩ ∧
    normalize_tiktok_url ⟨sc ++ ':' :: '/' :: '/' :: (h ++ p)⟩ =
      some ⟨sc.map Char.toLower ++ ':' :: '/' :: '/' :: (h ++ p)⟩ ∧
    (∀ st t c r u now,
      save_recipe st
        ⟨sc ++ ':' :: '/' :: '/' :: (h ++ (p ++ '?' :: (q ++ '#' :: f)))⟩
        t c r u now =
      save_recipe st ⟨sc ++ ':' :: '/' :: '/' :: (h ++ p)⟩ t c r u now) ∧
    (∀ st u,
      lookup_recipe st
        ⟨sc ++ ':' :: '/' :: '/' :: (h ++ (p ++ '?' :: (q ++ '#' :: f)))⟩ u =
      lookup_recipe st ⟨sc ++ ':' :: '/' :: '/' :: (h ++ p)⟩ u) := by
  obtain ⟨h1, h2⟩ := normalize_decorated_and_bare sc h p q f hsc1 hsc2 hscC
    hh0 hh hp hpc hqc hfc
  have e1 : normalize_tiktok_url
      ⟨sc ++ ':' :: '/' :: '/' :: (h ++ (p ++ '?' :: (q ++ '#' :: f)))⟩ =
      some ⟨sc.map Char.toLower ++ ':' :: '/' :: '/' :: (h ++ p)⟩ := by
    unfold normalize_tiktok_url
    show (normalizeL
      (sc ++ ':' :: '/' :: '/' :: (h ++ (p ++ '?' :: (q ++ '#' :: f))))).map
        (fun l => String.mk l) = _
    rw [h1]
    rfl
  have e2 : normalize_tiktok_url ⟨sc ++ ':' :: '/' :: '/' :: (h ++ p)⟩ =
      some ⟨sc.map Char.toLower ++ ':' :: '/' :: '/' :: (h ++ p)⟩ := by
    unfold normalize_tiktok_url
    show (normalizeL (sc ++ ':' :: '/' :: '/' :: (h ++ p))).map
      (fun l => String.mk l) = _
    rw [h2]
    rfl
  refine ⟨e1, e2, ?_, ?_⟩
  · intro st t c r u now
    unfold save_recipe
    rw [e1, e2]
  · intro st u
    unfold lookup_recipe
    rw [e1, e2]

/-- C4 witness: the spec example — the `si`-decorated, fragment-bearing
URL and the bare URL normalize to the same canonical form. -/
theorem c4_witness :
    normalize_tiktok_url "https://x/video?si=abc#frag" =
      some "https://x/video" ∧
    normalize_tiktok_url "https://x/video" = some "https://x/video" := by
  obtain ⟨h1, h2, _, _⟩ := c4_normalize_collision "https".data "x".data
    "/video".data "si=abc".data "frag".data (by decide) (by decide)
    (by decide) (by decide) (by decide) (by decide) (by decide) (by decide)
    (by decide) (by decide) (by decide)
  constructor
  · rw [show ("https://x/video?si=abc#frag" : String) =
        (⟨"https".data ++ ':' :: '/' :: '/' ::
          ("x".data ++ ("/video".data ++ '?' ::
            ("si=abc".data ++ '#' :: "frag".data)))⟩ : String) by decide]
    rw [h1]
    decide
  · rw [show ("https://x/video" : String) =
        (⟨"https".data ++ ':' :: '/' :: '/' ::
          ("x".data ++ "/video".data)⟩ : String) by decide]
    rw [h2]
    decide

/-- C6: for every user and every settings write, the stored (and
returned) row merges the provided fields with the prior row — an
omitted field keeps its previous value, and with no prior row omitted
fields take the defaults (`spice_tolerance = 2`, null text fields);
`updated_at` is refreshed to the write's clock on every write. -/
theorem c6_settings_merge (st : Store) (u : String)
    (d : Option String) (s : Option Int) (c : Option String) (now : Nat) :
    (set_user_settings st u d s c now).2 = some
      ⟨u,
       (match d with
        | some x => some x
        | none => match get_user_settings st u with
                  | some e => e.dietary_restrictions
                  | none => none),
       (match s with
        | some x => x
        | none => match get_user_settings st u with
                  | some e => e.spice_tolerance
                  | none => 2),
       (match c with
        | some x => some x
        | none => match get_user_settings st u with
                  | some e => e.custom_rules
                  | none => none),
       now⟩ := by
  unfold set_user_settings
  dsimp only
  by_cases hany : st.settings.any (fun r => r.user_id == u) = true
  · rw [if_pos hany]
    unfold get_user_settings
    dsimp only
    refine find?_map_const_update (fun (r : SettingsRow) => r.user_id == u)
      _ _ ?_ hany
    simp
  · rw [if_neg hany]
    unfold get_user_settings
    dsimp only
    rw [find?_append_of_left_none _ _ _ (fun x hx => by
      rw [Bool.eq_false_iff]
      intro hpx
      exact hany (List.any_eq_true.mpr ⟨x, hx, hpx⟩))]
    rw [List.find?_cons_of_pos _ (by simp)]

/-- C6 witness: the spec's two-call scenario — setting
`dietary_restrictions = "vegan"` and then only `spice_tolerance = 4`
preserves the omitted field and refreshes `updated_at`. -/
theorem c6_witness :
    (set_user_settings
      (set_user_settings ⟨[], 1, []⟩ "u" (some "vegan") none none 10).1
      "u" none (some 4) none 20).2 =
      some ⟨"u", some "vegan", 4, none, 20⟩ := by
  have h := c6_settings_merge
    (set_user_settings ⟨[], 1, []⟩ "u" (some "vegan") none none 10).1
    "u" none (some 4) none 20
  rw [h]
  decide

/-- C1: saving twice into a store that does not yet hold the normalized
`(url, user)` key yields exactly one row for that key, carrying the
second call's transcript/caption/recipe but the id and `created_at`
assigned by the first call; the first (non-conflicting) save inserts a
new row and returns a fresh id. -/
theorem c1_upsert_idempotent (st : Store) (raw url : String)
    (u : Option String) (t1 t2 : String) (c1 c2 : Option String)
    (r1 r2 : Json) (n1 n2 : Nat)
    (hn : normalize_tiktok_url raw = some url)
    (hwf : StoreWF st)
    (hfresh : ∀ r ∈ st.recipes, keyMatch url (effectiveUser u) r = false) :
    ∃ st1 st2,
      save_recipe st raw t1 c1 r1 u n1 = some (st.nextId, st1) ∧
      save_recipe st1 raw t2 c2 r2 u n2 = some (st.nextId, st2) ∧
      (∀ r ∈ st.recipes, r.id ≠ st.nextId) ∧
      st2.recipes =
        st.recipes ++ [⟨st.nextId, url, effectiveUser u, t2, c2, r2, n1⟩] ∧
      st2.recipes.filter (keyMatch url (effectiveUser u)) =
        [⟨st.nextId, url, effectiveUser u, t2, c2, r2, n1⟩] ∧
      StoreWF st2 := by
  refine ⟨⟨st.recipes ++ [⟨st.nextId, url, effectiveUser u, t1, c1, r1, n1⟩],
            st.nextId + 1, st.settings⟩,
          ⟨st.recipes ++ [⟨st.nextId, url, effectiveUser u, t2, c2, r2, n1⟩],
            st.nextId + 1, st.settings⟩, ?_, ?_, ?_, ?_, ?_, ?_⟩
  · unfold save_recipe
    rw [hn]
    dsimp only
    rw [find?_none_of_all_false _ _ hfresh]
  · unfold save_recipe
    rw [hn]
    dsimp only
    rw [find?_append_of_left_none _ _ _ hfresh]
    rw [List.find?_cons_of_pos _ (by simp [keyMatch])]
    dsimp only
    rw [List.map_append, map_if_id _ _ _ hfresh]
    dsimp only [List.map]
    rw [if_pos (show keyMatch url (effectiveUser u)
      ⟨st.nextId, url, effectiveUser u, t1, c1, r1, n1⟩ = true by
        simp [keyMatch])]
  · intro r hr
    exact Nat.ne_of_lt (hwf r hr)
  · rfl
  · rw [List.filter_append]
    rw [List.filter_eq_nil_iff.mpr (fun a ha => by simp [hfresh a ha])]
    rw [List.nil_append]
    simp [keyMatch]
  · intro r hr
    rcases List.mem_append.mp hr with hr | hr
    · exact Nat.lt_succ_of_lt (hwf r hr)
    · rcases List.mem_singleton.mp hr with rfl
      exact Nat.lt_succ_self _

/-- C1 witness: two saves of the same URL (up to normalization) with
different payloads into an empty store. -/
theorem c1_witness :
    ∃ st1 st2,
      save_recipe ⟨[], 1, []⟩ "https://a/b" "t1" none Json.null none 5 =
        some (1, st1) ∧
      save_recipe st1 "https://a/b" "t2" (some "c") (Json.bool true) none 9 =
        some (1, st2) ∧
      (∀ r ∈ ([] : List RecipeRow), r.id ≠ 1) ∧
      st2.recipes =
        [] ++ [⟨1, "https://a/b", "__anonymous__", "t2", some "c",
                Json.bool true, 5⟩] ∧
      st2.recipes.filter (keyMatch "https://a/b" (effectiveUser none)) =
        [⟨1, "https://a/b", "__anonymous__", "t2", some "c",
          Json.bool true, 5⟩] ∧
      StoreWF st2 :=
  c1_upsert_idempotent ⟨[], 1, []⟩ "https://a/b" "https://a/b" none
    "t1" "t2" none (some "c") Json.null (Json.bool true) 5 9
    (by decide) (fun r hr => absurd hr (List.not_mem_nil r))
    (fun r hr => absurd hr (List.not_mem_nil r))

/-- C2: for every process request whose key has a matching stored row,
the orchestrator returns the cached transcript, caption, recipe and row
id; the store and filesystem are untouched and the trace is empty — no
downloader, transcriber, or extractor call and no persistence write. -/
theorem c2_cache_short_circuit (st : Store) (fs : FS) (env : Env)
    (req : ProcessRequest) (v : CachedRecipe) (recipe : Recipe)
    (hlk : lookup_recipe st req.url req.user_id = some (some v))
    (hp : parseRecipe v.recipe = Except.ok recipe) :
    process_video st fs env req =
      ⟨Except.ok ⟨v.transcript, v.caption, recipe, some v.id⟩,
       st, fs, []⟩ := by
  unfold process_video
  rw [hlk]
  dsimp only
  rw [hp]

/-- C2 witness: a concrete cache hit returns the stored row while every
external oracle is an error — none of them is consulted. -/
theorem c2_witness :
    process_video
      ⟨[⟨1, "https://a/b", "__anonymous__", "tr", none,
         Json.obj [("title", Json.str "T")], 0⟩], 2, []⟩
      ⟨[], []⟩
      ⟨some "k", "/tmp/d", Except.error "never",
       fun _ => Except.error "never", Except.error "never", 0⟩
      ⟨"https://a/b?x=1", none⟩ =
      ⟨Except.ok ⟨"tr", none,
        ⟨"T", none, none, none, [], [], [], [], none, none⟩, some 1⟩,
       ⟨[⟨1, "https://a/b", "__anonymous__", "tr", none,
          Json.obj [("title", Json.str "T")], 0⟩], 2, []⟩,
       ⟨[], []⟩, []⟩ :=
  c2_cache_short_circuit _ _ _ _
    ⟨1, "tr", none, Json.obj [("title", Json.str "T")]⟩
    ⟨"T", none, none, none, [], [], [], [], none, none⟩ (by rfl) (by rfl)

/-- C3 counterexample: two concrete refutations of the claim as stated.
(a) A successful run that reaches and concludes the transcribe stage
leaves the temporary download directory created by `tempfile.mkdtemp()`
in place — `os.unlink` removes only the video file, so "the downloaded
temporary file/directory is deleted" fails for the directory.
(b) When the `os.unlink` call inside the `finally` block itself fails,
its error replaces the in-flight transcription failure (Python
`finally` semantics) and the file survives — so "a cleanup error never
masks or replaces the original failure being propagated" fails too. -/
theorem c3_counterexample :
    (process_video ⟨[], 1, []⟩ ⟨[], []⟩
      ⟨some "k", "/tmp/dl1", Except.ok (some "cap"),
       fun _ => Except.ok "a transcript",
       Except.ok (Json.obj [("title", Json.str "Pasta")]), 42⟩
      ⟨"https://a/b", none⟩).fs.dirs = ["/tmp/dl1"] ∧
    (process_video ⟨[], 1, []⟩ ⟨[], []⟩
      ⟨some "k", "/tmp/dl1", Except.ok (some "cap"),
       fun _ => Except.ok "a transcript",
       Except.ok (Json.obj [("title", Json.str "Pasta")]), 42⟩
      ⟨"https://a/b", none⟩).trace =
      [Ev.download, Ev.transcribe, Ev.extract, Ev.save] ∧
    (process_video ⟨[], 1, []⟩ ⟨[], []⟩
      ⟨some "k", "/tmp/dl1", Except.ok (some "cap"),
       fun _ => Except.ok "a transcript",
       Except.ok (Json.obj [("title", Json.str "Pasta")]), 42⟩
      ⟨"https://a/b", none⟩).result =
      Except.ok ⟨"a transcript", some "cap",
        ⟨"Pasta", none, none, none, [], [], [], [], none, some []⟩,
        some 1⟩ ∧
    transcribe_stage ⟨[], ["/tmp/dl2/video.mp4"]⟩ "/tmp/dl2/video.mp4"
      (Except.error "whisper died") (Except.error "Permission denied") =
      (Except.error ⟨500, "Internal Server Error"⟩,
       ⟨[], ["/tmp/dl2/video.mp4"]⟩) :=
  ⟨by rfl, by rfl, by rfl, by rfl⟩

/-- C3 (amended): for every run that reaches the transcribe stage,
whether transcription succeeds or fails, the downloaded temporary video
file is deleted before the stage concludes and the original outcome is
propagated unchanged — provided the cleanup's `os.unlink` call itself
succeeds; when the unlink call fails, its error replaces the original
failure (Python `finally` semantics) and the file survives; and the
temporary directory created for the download is never deleted (in the
nominal pipeline the final filesystem keeps the directory and none of
the files). -/
theorem c3_cleanup_scoped (fs : FS) (video_path : String)
    (tr : Except String String)
    (hcond : (video_path != "" && fs.files.contains video_path) = true) :
    ((transcribe_stage fs video_path tr (Except.ok ())).2 =
        ⟨fs.dirs, fs.files.erase video_path⟩ ∧
     (∀ e, tr = Except.error e →
       (transcribe_stage fs video_path tr (Except.ok ())).1 =
         Except.error ⟨500, "Transcription failed: " ++ e⟩) ∧
     (∀ t, tr = Except.ok t →
       (transcribe_stage fs video_path tr (Except.ok ())).1 =
         Except.ok t)) ∧
    (∀ ec, transcribe_stage fs video_path tr (Except.error ec) =
      (Except.error ⟨500, "Internal Server Error"⟩, fs)) ∧
    (∀ st fs0 env req cap,
      lookup_recipe st req.url req.user_id = some none →
      (env.api_key.getD "") ≠ "" →
      env.dl_outcome = Except.ok cap →
      (process_video st fs0 env req).fs =
        ⟨env.tmpdir :: fs0.dirs, fs0.files⟩) := by
  refine ⟨⟨?_, ?_, ?_⟩, ?_, ?_⟩
  · rw [transcribe_stage_ok_unlink _ _ _ hcond]
  · intro e he
    rw [transcribe_stage_ok_unlink _ _ _ hcond]
    dsimp only
    rw [he]
  · intro t ht
    rw [transcribe_stage_ok_unlink _ _ _ hcond]
    dsimp only
    rw [ht]
  · intro ec
    unfold transcribe_stage
    dsimp only
    rw [if_pos hcond]
  · intro st fs0 env req cap hlk hk hdl
    have hrun := process_miss_run st fs0 env req hlk hk
    rw [hdl] at hrun
    dsimp only at hrun
    rcases htr : env.transcribe (env.tmpdir ++ "/video.mp4") with e | t
    · rw [htr] at hrun
      dsimp only at hrun
      rw [hrun]
    · rw [htr] at hrun
      dsimp only at hrun
      rcases hex : extract_recipe t (env.api_key.getD "") cap
          (match req.user_id with
           | some u => if u != "" then get_user_settings st u else none
           | none => none) "claude-sonnet-4-20250514" env.model_response
          with e2 | out
      · rw [hex] at hrun
        dsimp only at hrun
        rw [hrun]
      · rw [hex] at hrun
        dsimp only at hrun
        rcases hpr : parseRecipe out with e3 | recipe
        · rw [hpr] at hrun
          dsimp only at hrun
          rw [hrun]
        · rw [hpr] at hrun
          dsimp only at hrun
          rcases hsv : save_recipe st req.url t cap out req.user_id env.now
              with _ | ⟨rid, st'⟩
          · rw [hsv] at hrun
            dsimp only at hrun
            rw [hrun]
          · rw [hsv] at hrun
            dsimp only at hrun
            rw [hrun]

/-- C3 witness: with a succeeding unlink the file is gone and the
transcription failure (and, in a second run, the transcript) passes
through unchanged; the nominal pipeline ends with the leaked directory
and no files. -/
theorem c3_witness :
    (transcribe_stage ⟨[], ["/tmp/d/video.mp4"]⟩ "/tmp/d/video.mp4"
      (Except.error "tfail") (Except.ok ())).2 = ⟨[], []⟩ ∧
    (transcribe_stage ⟨[], ["/tmp/d/video.mp4"]⟩ "/tmp/d/video.mp4"
      (Except.error "tfail") (Except.ok ())).1 =
      Except.error ⟨500, "Transcription failed: tfail"⟩ ∧
    (transcribe_stage ⟨[], ["/tmp/d/video.mp4"]⟩ "/tmp/d/video.mp4"
      (Except.ok "a transcript") (Except.ok ())).2 = ⟨[], []⟩ ∧
    (process_video ⟨[], 1, []⟩ ⟨[], []⟩
      ⟨some "k", "/tmp/d", Except.ok none, fun _ => Except.error "tfail",
       Except.error "y", 0⟩ ⟨"https://a/b", none⟩).fs =
      ⟨["/tmp/d"], []⟩ := by
  have h1 := c3_cleanup_scoped ⟨[], ["/tmp/d/video.mp4"]⟩ "/tmp/d/video.mp4"
    (Except.error "tfail") (by decide)
  have h2 := c3_cleanup_scoped ⟨[], ["/tmp/d/video.mp4"]⟩ "/tmp/d/video.mp4"
    (Except.ok "a transcript") (by decide)
  refine ⟨?_, h1.1.2.1 "tfail" rfl, ?_, ?_⟩
  · rw [h1.1.1]
    decide
  · rw [h2.1.1]
    decide
  · exact h1.2.2 ⟨[], 1, []⟩ ⟨[], []⟩
      ⟨some "k", "/tmp/d", Except.ok none, fun _ => Except.error "tfail",
       Except.error "y", 0⟩ ⟨"https://a/b", none⟩ none
      (by rfl) (by decide) rfl

/-- C7: on a cache miss with the API key configured, a download failure
maps to a client-fault 422, a transcription failure to a server-fault
500, an extraction failure — whether the model call/parse fails or the
document violates the schema — to a server-fault 500; and no stage ever
appears more than once in the trace (no automatic retries). -/
theorem c7_failure_status_mapping (st : Store) (fs : FS) (env : Env)
    (req : ProcessRequest)
    (hlk : lookup_recipe st req.url req.user_id = some none)
    (hk : (env.api_key.getD "") ≠ "") :
    (∀ e, env.dl_outcome = Except.error e →
      (process_video st fs env req).result =
        Except.error ⟨422, "Failed to download video: " ++ e⟩) ∧
    (∀ cap e, env.dl_outcome = Except.ok cap →
      env.transcribe (env.tmpdir ++ "/video.mp4") = Except.error e →
      (process_video st fs env req).result =
        Except.error ⟨500, "Transcription failed: " ++ e⟩) ∧
    (∀ cap t e, env.dl_outcome = Except.ok cap →
      env.transcribe (env.tmpdir ++ "/video.mp4") = Except.ok t →
      extract_recipe t (env.api_key.getD "") cap
        (match req.user_id with
         | some u => if u != "" then get_user_settings st u else none
         | none => none) "claude-sonnet-4-20250514" env.model_response =
        Except.error e →
      (process_video st fs env req).result =
        Except.error ⟨500, "Recipe extraction failed: " ++ e⟩) ∧
    (∀ cap t out e, env.dl_outcome = Except.ok cap →
      env.transcribe (env.tmpdir ++ "/video.mp4") = Except.ok t →
      extract_recipe t (env.api_key.getD "") cap
        (match req.user_id with
         | some u => if u != "" then get_user_settings st u else none
         | none => none) "claude-sonnet-4-20250514" env.model_response =
        Except.ok out →
      parseRecipe out = Except.error e →
      (process_video st fs env req).result =
        Except.error ⟨500, "Recipe extraction failed: " ++ e⟩) ∧
    (∀ ev : Ev, (process_video st fs env req).trace.count ev ≤ 1) := by
  refine ⟨?_, ?_, ?_, ?_, ?_⟩
  · intro e hdl
    have hrun := process_miss_run st fs env req hlk hk
    rw [hdl] at hrun
    dsimp only at hrun
    rw [hrun]
  · intro cap e hdl htr
    have hrun := process_miss_run st fs env req hlk hk
    rw [hdl] at hrun
    dsimp only at hrun
    rw [htr] at hrun
    dsimp only at hrun
    rw [hrun]
  · intro cap t e hdl htr hex
    have hrun := process_miss_run st fs env req hlk hk
    rw [hdl] at hrun
    dsimp only at hrun
    rw [htr] at hrun
    dsimp only at hrun
    rw [hex] at hrun
    dsimp only at hrun
    rw [hrun]
  · intro cap t out e hdl htr hex hpr
    have hrun := process_miss_run st fs env req hlk hk
    rw [hdl] at hrun
    dsimp only at hrun
    rw [htr] at hrun
    dsimp only at hrun
    rw [hex] at hrun
    dsimp only at hrun
    rw [hpr] at hrun
    dsimp only at hrun
    rw [hrun]
  · intro ev
    have hrun := process_miss_run st fs env req hlk hk
    rcases hdl : env.dl_outcome with e | cap
    · rw [hdl] at hrun
      dsimp only at hrun
      rw [hrun]
      cases ev <;> (dsimp only; decide)
    · rw [hdl] at hrun
      dsimp only at hrun
      rcases htr : env.transcribe (env.tmpdir ++ "/video.mp4") with e | t
      · rw [htr] at hrun
        dsimp only at hrun
        rw [hrun]
        cases ev <;> (dsimp only; decide)
      · rw [htr] at hrun
        dsimp only at hrun
        rcases hex : extract_recipe t (env.api_key.getD "") cap
            (match req.user_id with
             | some u => if u != "" then get_user_settings st u else none
             | none => none) "claude-sonnet-4-20250514" env.model_response
            with e2 | out
        · rw [hex] at hrun
          dsimp only at hrun
          rw [hrun]
          cases ev <;> (dsimp only; decide)
        · rw [hex] at hrun
          dsimp only at hrun
          rcases hpr : parseRecipe out with e3 | recipe
          · rw [hpr] at hrun
            dsimp only at hrun
            rw [hrun]
            cases ev <;> (dsimp only; decide)
          · rw [hpr] at hrun
            dsimp only at hrun
            rcases hsv : save_recipe st req.url t cap out req.user_id
                env.now with _ | ⟨rid, st'⟩
            · rw [hsv] at hrun
              dsimp only at hrun
              rw [hrun]
              cases ev <;> (dsimp only; decide)
            · rw [hsv] at hrun
              dsimp only at hrun
              rw [hrun]
              cases ev <;> (dsimp only; decide)

/-- C7 witness: a failing download yields 422; a failing transcription
yields the 500 transcription error. -/
theorem c7_witness :
    (process_video ⟨[], 1, []⟩ ⟨[], []⟩
      ⟨some "k", "/tmp/d", Except.error "boom", fun _ => Except.error "x",
       Except.error "y", 0⟩ ⟨"https://a/b", none⟩).result =
      Except.error ⟨422, "Failed to download video: boom"⟩ ∧
    (process_video ⟨[], 1, []⟩ ⟨[], []⟩
      ⟨some "k", "/tmp/d", Except.ok none, fun _ => Except.error "tfail",
       Except.error "y", 0⟩ ⟨"https://a/b", none⟩).result =
      Except.error ⟨500, "Transcription failed: tfail"⟩ :=
  ⟨(c7_failure_status_mapping ⟨[], 1, []⟩ ⟨[], []⟩
      ⟨some "k", "/tmp/d", Except.error "boom", fun _ => Except.error "x",
       Except.error "y", 0⟩ ⟨"https://a/b", none⟩
      (by rfl) (by decide)).1 "boom" rfl,
   (c7_failure_status_mapping ⟨[], 1, []⟩ ⟨[], []⟩
      ⟨some "k", "/tmp/d", Except.ok none, fun _ => Except.error "tfail",
       Except.error "y", 0⟩ ⟨"https://a/b", none⟩
      (by rfl) (by decide)).2.1 none "tfail" rfl rfl⟩

end Touille
